import Mathlib

/-!
Verification of the CVastian candidate-ranking pipeline against its
natural-language specification.

The Python sources are shallowly embedded: pure string-processing
functions become Lean functions on `String` / `List Char`; Python
floats are modelled as `ℚ` (the operations used — division, `min`,
`max`, comparison — are exact on the values involved); Python `set`s
are modelled as deduplicated lists; the FastAPI endpoint
`analyze_candidates` becomes an explicit state-passing function over a
`Store` record, raising modelled as `Except`.  External effects (UUID
generation, wall-clock timestamps, the HTTP transport) are elided or
passed as parameters; no claim below depends on them.
-/

namespace CVastian

/-! ## Python string primitives -/

/-- Python truthiness of strings: `a or b` returns `b` when `a` is the
empty string, else `a`. -/
def pyOr (a b : String) : String :=
  if a = "" then b else a

/-- Python `str.lower()` (ASCII case folding suffices for the inputs
considered here). -/
def pyLower (s : String) : String :=
  String.mk (s.data.map Char.toLower)

/-- Python whitespace class `\s` (space, tab, newline, carriage return,
form feed, vertical tab). -/
def isPySpace (c : Char) : Bool :=
  c = ' ' || c = '\t' || c = '\n' || c = '\r' || c = '\x0c' || c = '\x0b'

/-- Strip characters of `chs` from both ends, as Python
`str.strip(chs)`. -/
def pyStripChars (chs : List Char) (s : String) : String :=
  String.mk (((s.data.dropWhile (chs.contains ·)).reverse.dropWhile
      (chs.contains ·)).reverse)

/-- Python `str.strip()` with no argument: strip whitespace from both
ends. -/
def pyStrip (s : String) : String :=
  String.mk (((s.data.dropWhile isPySpace).reverse.dropWhile
      isPySpace).reverse)

/-- Maximal runs of characters satisfying `p`; the accumulator holds the
current run reversed. -/
def runsAux (p : Char → Bool) : List Char → List Char → List (List Char)
  | [], acc => if acc.isEmpty then [] else [acc.reverse]
  | c :: cs, acc =>
    if p c then runsAux p cs (c :: acc)
    else if acc.isEmpty then runsAux p cs [] else acc.reverse :: runsAux p cs []

/-- Maximal runs of characters satisfying `p` in a string. -/
def charRuns (p : Char → Bool) (s : String) : List (List Char) :=
  runsAux p s.data []

/-- Python `str.split()` with no argument: maximal runs of
non-whitespace characters. -/
def pySplitWs (s : String) : List String :=
  (charRuns (fun c => !(isPySpace c)) s).map String.mk

/-- Split a character list at every character satisfying `p`, keeping
empty pieces, as Python `re.split` on a character class. -/
def splitOnCharPred (p : Char → Bool) : List Char → List (List Char)
  | [] => [[]]
  | c :: cs =>
    let rest := splitOnCharPred p cs
    if p c then [] :: rest
    else
      match rest with
      | [] => [[c]]
      | piece :: more => (c :: piece) :: more

/-! ## Text Redactor — `src/utils/anonymization.py`

`anonymize_text` is the active redaction entry point (lines 97 to 102).
Its body returns the input unchanged together with an all-zero audit;
the `Anonymizer` class above it is commented out of the call path. -/

/-- Audit record returned by `anonymize_text` (the Python dict with keys
pii_redacted, bias_indicators_removed, pii_details, bias_details). -/
structure RedactionAudit where
  pii_redacted : Nat
  bias_indicators_removed : Nat
  pii_details : List (String × String)
  bias_details : List String
  deriving Repr, DecidableEq

/-- Embedding of `anonymize_text` (anonymization.py lines 97 to 102):
the function returns the text unchanged and a zero audit; the
`Anonymizer` pipeline is commented out in the source. -/
def anonymize_text (text : String) : String × RedactionAudit :=
  (text, { pii_redacted := 0, bias_indicators_removed := 0,
           pii_details := [], bias_details := [] })

/-! ### The email detection pattern

PII pattern `email` from `Anonymizer.pii_patterns` (line 25):
word boundary, one or more of `[A-Za-z0-9._%+-]`, at sign, one or more
of `[A-Za-z0-9.-]`, a dot, two or more of `[A-Z|a-z]`, word boundary.
A match of the regex exists in a string exactly when the string splits
as below (regex alternatives and quantifier lengths are existential). -/

/-- Regex word character `\w` (ASCII): letters, digits, underscore. -/
def isReWordChar (c : Char) : Bool :=
  c.isAlphanum || c = '_'

/-- Character class `[A-Za-z0-9._%+-]` of the email local part. -/
def isEmailLocalChar (c : Char) : Bool :=
  c.isAlpha || c.isDigit || c = '.' || c = '_' || c = '%' || c = '+' || c = '-'

/-- Character class `[A-Za-z0-9.-]` of the email domain part. -/
def isEmailDomainChar (c : Char) : Bool :=
  c.isAlpha || c.isDigit || c = '.' || c = '-'

/-- Character class `[A-Z|a-z]` of the email top-level-domain part (the
source class literally includes the bar character). -/
def isEmailTldChar (c : Char) : Bool :=
  c.isAlpha || c = '|'

/-- A `\b` word boundary holds between two (optional) characters when
exactly one side is a word character; string edges count as non-word. -/
def wordBoundaryB (a b : Option Char) : Bool :=
  (a.elim false isReWordChar) != (b.elim false isReWordChar)

/-- The email PII regex has a match somewhere in `s`. -/
def emailMatchIn (s : String) : Prop :=
  ∃ pre loc dom tld post : List Char,
    s.data = pre ++ loc ++ ['@'] ++ dom ++ ['.'] ++ tld ++ post ∧
    loc ≠ [] ∧ dom ≠ [] ∧ 2 ≤ tld.length ∧
    loc.all isEmailLocalChar ∧ dom.all isEmailDomainChar ∧
    tld.all isEmailTldChar ∧
    wordBoundaryB pre.getLast? loc.head? = true ∧
    wordBoundaryB tld.getLast? post.head? = true

/-! ## Keyword-overlap scorer — `src/utils/llm_wrapper.py`

`LLMManager.analyze_candidate` (lines 88 to 126) scores a candidate by
keyword matching without any model call. -/

/-- Result triple produced by the scorer and by the marker parser:
the Python dict with keys score, explanation, citations. -/
structure AnalysisResult where
  score : ℚ
  explanation : String
  citations : List String
  deriving Repr, DecidableEq

/-- The stopword set of `analyze_candidate` (llm_wrapper.py lines 96 to
97), verbatim including its duplicated entries; a Python set literal
collapses the duplicates, membership is unaffected. -/
def kwStopwords : List String :=
  ["the", "and", "are", "but", "for", "not", "you", "all", "can", "her",
   "was", "one", "our", "had", "by", "hot", "but", "some", "very", "from",
   "they", "know", "want", "been", "good", "their", "said", "each",
   "which", "she", "any", "that", "set", "may", "old", "such", "way",
   "after", "take", "how", "then", "will", "were", "see", "more", "two",
   "use", "has", "too", "your", "has", "him", "its", "his", "who", "did",
   "way", "get", "just", "let", "with", "into", "than", "out", "when",
   "look", "most", "this", "will", "would", "have", "there", "what",
   "were", "what", "said", "only", "come", "many", "could", "here",
   "come", "over", "then", "think", "them", "said", "come", "about",
   "like", "well", "should", "want", "an", "have", "here", "work",
   "year", "where", "you", "must", "they", "first", "years"]

/-- Matches of `\b\w{4,}\b` under `re.findall`: the maximal runs of word
characters having length at least four. -/
def findallWords (s : String) : List String :=
  ((charRuns isReWordChar s).filter (fun r => 4 ≤ r.length)).map String.mk

/-- The local variable `job_keywords` of `analyze_candidate`:
`set(re.findall(r'\b\w{4,}\b', job_desc.lower())) - stopwords`,
the set modelled as a deduplicated list. -/
def jobKeywords (job_desc : String) : List String :=
  ((findallWords (pyLower job_desc)).dedup).filter
    (fun w => !(kwStopwords.contains w))

/-- The local variable `resume_words` of `analyze_candidate` after the
stopword subtraction (lines 101 to 102). -/
def resumeKeywords (resume_text : String) : List String :=
  ((findallWords (pyLower resume_text)).dedup).filter
    (fun w => !(kwStopwords.contains w))

/-- The local variable `matching_keywords`: the intersection of the two
keyword sets, enumerated in job-keyword order. -/
def matchingKeywords (job_desc resume_text : String) : List String :=
  (jobKeywords job_desc).filter (fun w => (resumeKeywords resume_text).contains w)

/-- Embedding of `LLMManager.analyze_candidate` (llm_wrapper.py lines 88
to 126): score is the matching-keyword count over the job-keyword count
(0.0 for an empty job-keyword set), clamped to the unit interval as in
the source line 114; citations are at most five matched keywords. -/
def analyze_candidate (job_desc resume_text : String) : AnalysisResult :=
  let job_keywords := jobKeywords job_desc
  let matching := matchingKeywords job_desc resume_text
  let score0 : ℚ :=
    if job_keywords.isEmpty then 0
    else (matching.length : ℚ) / (job_keywords.length : ℚ)
  let score := min 1 (max 0 score0)
  { score := score,
    explanation :=
      "Keyword matching analysis found " ++ toString matching.length ++
      " out of " ++ toString job_keywords.length ++
      " job keywords present in the resume.",
    citations := matching.take 5 }

/-! ## Resume records stored by the upload endpoint —
`src/backend/main.py` lines 164 to 177 -/

/-- Resume record as persisted by `upload_resumes` and consumed by
`analyze_candidates` (data_models.py lines 27 to 35; the language and
timestamp fields are elided, no claim depends on them; the Optional
anonymized_text is stored as the empty string by the endpoint). -/
structure Resume where
  id : String
  original_filename : String
  extracted_text : String
  anonymized_text : String
  deriving Repr, DecidableEq

/-- The record built in the save loop of `upload_resumes` (main.py lines
165 to 175): both text fields are set to the empty string. -/
def storedResume (resume_id filename : String) : Resume :=
  { id := resume_id, original_filename := filename,
    extracted_text := "", anonymized_text := "" }

/-- The second loop of `upload_resumes` (main.py lines 164 to 177)
rebuilds every persisted record via `storedResume`. -/
def uploadStoredResumes (processed : List (String × String)) : List Resume :=
  processed.map (fun p => storedResume p.1 p.2)

/-- The resume-side argument passed to the scorer by
`analyze_candidates` (main.py line 230):
`resume.anonymized_text or resume.extracted_text`. -/
def resumeInputText (r : Resume) : String :=
  pyOr r.anonymized_text r.extracted_text

/-! ## Marker-based response parser — `LLMManager._parse_marker_response`
(`src/utils/llm_wrapper.py` lines 128 to 172)

The three regexes are embedded by hand with Python `re.search`
semantics: leftmost match, greedy quantifiers with backtracking.  Since
the quantified classes are disjoint from what must follow them, the
backtracking collapses to the explicit case splits below. -/

/-- Case-insensitive literal prefix match: `pat` is given lowercased;
on success returns the remainder of the input. -/
def matchPrefixCI : List Char → List Char → Option (List Char)
  | [], l => some l
  | _ :: _, [] => none
  | p :: ps, c :: cs => if c.toLower = p then matchPrefixCI ps cs else none

/-- The character class `[:\s]` used after each marker word. -/
def isColonSpace (c : Char) : Bool :=
  c = ':' || isPySpace c

/-- Greedy match of `[-+]?\d*\.?\d+` at the start of the input,
returning sign, integer digits and fraction digits.  When the optional
dot is not followed by a digit the regex backtracks to the plain
integer reading; a sign with no digits fails (no alternative path
exists because the quantified classes are disjoint). -/
def parseNumTok (l : List Char) : Option (Bool × List Char × List Char) :=
  let core : Bool → List Char → Option (Bool × List Char × List Char) :=
    fun neg t =>
      let d1 := t.takeWhile Char.isDigit
      let t1 := t.drop d1.length
      match t1 with
      | '.' :: t2 =>
        let d2 := t2.takeWhile Char.isDigit
        if d2.isEmpty then (if d1.isEmpty then none else some (neg, d1, []))
        else some (neg, d1, d2)
      | _ => if d1.isEmpty then none else some (neg, d1, [])
  match l with
  | '+' :: t => core false t
  | '-' :: t => core true t
  | t => core false t

/-- Decimal value of a digit run. -/
def digitsToNat (ds : List Char) : Nat :=
  ds.foldl (fun a c => 10 * a + (c.toNat - '0'.toNat)) 0

/-- Value of a matched numeric token, as Python `float` of the matched
group (modelled exactly in ℚ). -/
def numTokValue : Bool × List Char × List Char → ℚ
  | (neg, d1, d2) =>
    let m : ℚ := (digitsToNat d1 : ℚ) + (digitsToNat d2 : ℚ) / ((10 : ℚ) ^ d2.length)
    if neg then -m else m

/-- Leftmost match of the regex `score[:\s]*([-+]?\d*\.?\d+)` under
`re.search` with IGNORECASE (llm_wrapper.py lines 136 to 137), returning
the value of the captured group. -/
def findScoreValue : List Char → Option ℚ
  | [] => none
  | l@(_ :: rest) =>
    match matchPrefixCI ['s','c','o','r','e'] l with
    | some r =>
      match parseNumTok (r.dropWhile isColonSpace) with
      | some tok => some (numTokValue tok)
      | none => findScoreValue rest
    | none => findScoreValue rest

/-- Leftmost match of `pat[:\s]*(.+)` (with DOTALL, so the greedy group
runs to the end of the string), returning the captured group.  When
`optS` is set the pattern word carries an optional trailing letter s
tried greedily first, as in `citations?`.  When the greedy `[:\s]*` run
reaches the end of the input, the group backtracks one character out of
the run; if the run is also empty the match fails at this position and
the scan resumes one character further right. -/
def markerGroup (pat : List Char) (optS : Bool) : List Char → Option (List Char)
  | [] => none
  | l@(_ :: rest) =>
    match matchPrefixCI pat l with
    | some r =>
      let attempt : List Char → Option (List Char) := fun t =>
        let run := t.takeWhile isColonSpace
        let tail := t.drop run.length
        if !tail.isEmpty then some tail
        else if !run.isEmpty then some (t.drop (run.length - 1))
        else none
      let res : Option (List Char) :=
        if optS then
          match r with
          | c :: r2 =>
            if c.toLower = 's' then
              match attempt r2 with
              | some g => some g
              | none => attempt r
            else attempt r
          | [] => attempt r
        else attempt r
      match res with
      | some g => some g
      | none => markerGroup pat optS rest
    | none => markerGroup pat optS rest

/-- The explanation extraction of `_parse_marker_response` (lines 145 to
156): the stripped text after an explanation marker, else the first
substantial non-numeric line truncated to 200 characters, else the
default text. -/
def parseExplanation (content : String) : String :=
  match markerGroup ['e','x','p','l','a','n','a','t','i','o','n'] false content.data with
  | some g => pyStrip (String.mk g)
  | none =>
    let lines :=
      (((splitOnCharPred (fun c => c = '\n') content.data).map
          (fun p => pyStrip (String.mk p))).filter (fun s => s ≠ ""))
    match lines with
    | [] => "Analysis completed"
    | l0 :: _ =>
      if (l0.data.take 10).any Char.isDigit then "Analysis completed"
      else String.mk (l0.data.take 200)

/-- The citation extraction of `_parse_marker_response` (lines 158 to
166): text after a citation marker, split on semicolons, commas and
newlines, stripped, empties dropped, capped at five entries. -/
def parseCitations (content : String) : List String :=
  match markerGroup ['c','i','t','a','t','i','o','n'] true content.data with
  | some g =>
    ((((splitOnCharPred (fun c => c = ';' || c = ',' || c = '\n')
          (pyStrip (String.mk g)).data).map
        (fun p => pyStrip (String.mk p))).filter (fun s => s ≠ "")).take 5)
  | none => []

/-- Embedding of `LLMManager._parse_marker_response` (llm_wrapper.py
lines 128 to 172).  The score defaults to 0.0 and any extracted value is
clamped to the unit interval; the final explanation falls back to the
success default when empty, as in the source dict literal. -/
def parse_marker_response (content : String) : AnalysisResult :=
  let score : ℚ :=
    match findScoreValue content.data with
    | some v => min 1 (max 0 v)
    | none => 0
  { score := score,
    explanation := pyOr (parseExplanation content) "Analysis completed successfully",
    citations := parseCitations content }

/-! ## Backend analysis endpoint — `src/backend/main.py` lines 189 to 271

The endpoint is embedded as explicit state passing over a `Store`
record holding the three persisted record sets of `DataStore`.  Raising
`HTTPException` becomes an `Except` value; the enclosing
`except Exception` handler re-raises every error as status 500 with a
prefixed detail, which the embedding applies to the validation errors.
The scorer (`llm_manager.analyze_candidate`) and the UUID supply for new
ranking ids are parameters; the endpoint instantiates the scorer with
`analyze_candidate`.  The returned `invoked` list instruments which
resume ids reached the scorer, for the idempotence claims. -/

/-- Job description record (data_models.py lines 16 to 24; language,
timestamp and tags elided, the Optional anonymized_text modelled as a
string with the empty string for None). -/
structure Job where
  id : String
  text : String
  anonymized_text : String
  filename : String
  deriving Repr, DecidableEq

/-- Candidate ranking record (data_models.py lines 38 to 47; the
created_at timestamp is elided). -/
structure Ranking where
  id : String
  job_id : String
  resume_id : String
  score : ℚ
  explanation : String
  citations : List String
  model_used : String
  deriving Repr, DecidableEq

/-- One entry of the response list built by `analyze_candidates`
(main.py lines 216 to 222 and 247 to 253). -/
structure RankingOut where
  resume_id : String
  filename : String
  score : ℚ
  explanation : String
  citations : List String
  deriving Repr, DecidableEq

/-- The persisted state of `DataStore`: jobs, resumes, and rankings
partitioned by job identifier. -/
structure Store where
  jobs : List Job
  resumes : List Resume
  rankings : String → List Ranking

/-- An HTTPException as seen by the caller: status code and detail. -/
structure HErr where
  status : Nat
  detail : String
  deriving Repr, DecidableEq

/-- Successful response body of `analyze_candidates` (main.py lines 261
to 266; the timestamp is elided). -/
structure AnalyzeResponse where
  job_id : String
  total_candidates : Nat
  rankings : List RankingOut
  deriving Repr, DecidableEq

/-- Outcome of one call to the analysis endpoint: the resulting store,
the HTTP-level result, and the instrumented list of resume ids for
which the scorer was invoked. -/
structure AnalyzeOutcome where
  store : Store
  result : Except HErr AnalyzeResponse
  invoked : List String

/-- The job-side argument passed to the scorer (main.py line 229):
`job.anonymized_text or job.text`. -/
def jobInputText (j : Job) : String :=
  pyOr j.anonymized_text j.text

/-- Descending-score order used by the two `sort(key=..., reverse=True)`
calls: `a` may precede `b` when its score is at least `b`'s. -/
def scoreGE (a b : RankingOut) : Prop :=
  b.score ≤ a.score

instance : DecidableRel scoreGE :=
  fun a b => inferInstanceAs (Decidable (b.score ≤ a.score))

instance : IsTotal RankingOut scoreGE :=
  ⟨fun a b => le_total b.score a.score⟩

instance : IsTrans RankingOut scoreGE :=
  ⟨fun _ _ _ h1 h2 => le_trans h2 h1⟩

/-- The in-place `rankings.sort(key=lambda x: x["score"], reverse=True)`
(main.py line 259, and line 317 of `get_results`): a stable sort moving
higher scores first.  Python's sort is stable and `reverse=True`
preserves the original order of equal keys, which is exactly insertion
sort under `scoreGE`. -/
def sortRankings (l : List RankingOut) : List RankingOut :=
  List.insertionSort scoreGE l

/-- One iteration of the per-resume loop of `analyze_candidates`
(main.py lines 211 to 253): reuse the first existing ranking for the
resume id if present, otherwise invoke the scorer and append a new
ranking record. -/
def analyzeStep (scorer : String → String → AnalysisResult)
    (jobText job_id : String) (mkId : Resume → String)
    (acc : List Ranking × List RankingOut × List String) (resume : Resume) :
    List Ranking × List RankingOut × List String :=
  let (existing, outs, inv) := acc
  match existing.find? (fun k => k.resume_id = resume.id) with
  | some ex =>
    (existing,
     outs ++ [{ resume_id := resume.id, filename := resume.original_filename,
                score := ex.score, explanation := ex.explanation,
                citations := ex.citations }],
     inv)
  | none =>
    let analysis := scorer jobText (resumeInputText resume)
    let ranking : Ranking :=
      { id := mkId resume, job_id := job_id, resume_id := resume.id,
        score := analysis.score, explanation := analysis.explanation,
        citations := analysis.citations, model_used := "keyword-matching" }
    (existing ++ [ranking],
     outs ++ [{ resume_id := resume.id, filename := resume.original_filename,
                score := analysis.score, explanation := analysis.explanation,
                citations := analysis.citations }],
     inv ++ [resume.id])

/-- Embedding of the `analyze_candidates` endpoint (main.py lines 189 to
271).  Job lookup failure and an empty resume set raise before any
scoring work; the enclosing handler rewraps them with status 500.  On
success the accumulated rankings are persisted for the job, and the
response carries the sorted top ten. -/
def analyze_candidates (scorer : String → String → AnalysisResult)
    (mkId : Resume → String) (store : Store) (job_id : String) :
    AnalyzeOutcome :=
  match store.jobs.find? (fun j => j.id = job_id) with
  | none =>
    { store := store,
      result := Except.error
        ⟨500, "Failed to analyze candidates: 404: Job description not found"⟩,
      invoked := [] }
  | some job =>
    if store.resumes.isEmpty then
      { store := store,
        result := Except.error
          ⟨500, "Failed to analyze candidates: 400: No resumes uploaded yet"⟩,
        invoked := [] }
    else
      let start : List Ranking × List RankingOut × List String :=
        (store.rankings job_id, [], [])
      let folded := store.resumes.foldl
        (analyzeStep scorer (jobInputText job) job_id mkId) start
      { store := { store with
          rankings := fun j => if j = job_id then folded.1 else store.rankings j },
        result := Except.ok
          ⟨job_id, folded.2.1.length, (sortRankings folded.2.1).take 10⟩,
        invoked := folded.2.2 }

/-! ## Batch orchestrator of the monolithic UI — `src/app.py` lines 285
to 306

Submission enumerates the uploaded files in order and passes the
upload-order candidate id into `process_resume`; the aggregation loop
then enumerates `as_completed(futures)` and recomputes `candidate_id`
from the completion index before storing the association.  Completion
order is modelled as the list of future indices in the order they
complete. -/

/-- Python format `f"Candidate{i+1:03d}"`: the label of index `i`. -/
def candidateLabel (i : Nat) : String :=
  let n := i + 1
  "Candidate" ++
    (if n < 10 then "00" ++ toString n
     else if n < 100 then "0" ++ toString n
     else toString n)

/-- The association `resume_names` built by the aggregation loop
(app.py lines 295 to 301): the i-th future to complete is stored under
the label of completion index i; `order` lists the submitted future
indices in completion order, and `files.getD j` is the filename
`future.result()` returns for future j (process_resume returns
`resume.name` first). -/
def completedBatchNames (files : List String) (order : List Nat) :
    List (String × String) :=
  order.enum.map (fun p => (candidateLabel p.1, files.getD p.2 ""))

/-! ## Job-text condenser word filter — `src/app.py` lines 137 to 154

The per-sentence stopword-removal step of `preprocess_job_text`. -/

/-- The `filler_words` list of `preprocess_job_text` (app.py lines 88 to
109), verbatim including its duplicated entries. -/
def fillerWords : List String :=
  ["the", "a", "an", "and", "or", "but", "in", "on", "at", "to", "for",
   "with", "by", "from", "of", "as", "is", "are", "was", "were", "be",
   "been", "being", "have", "has", "had", "do", "does", "did", "will",
   "would", "could", "should", "may", "might", "must", "can", "this",
   "that", "these", "those", "just", "only", "really", "very", "quite",
   "also", "then", "now", "well", "so", "however", "therefore",
   "furthermore", "moreover", "nevertheless", "nonetheless", "thus",
   "hence", "accordingly", "consequently", "meanwhile", "otherwise",
   "besides", "anyway", "anyhow", "incidentally", "naturally", "certainly",
   "definitely", "probably", "possibly", "perhaps", "maybe", "generally",
   "usually", "typically", "normally", "commonly", "regularly", "sometimes",
   "occasionally", "often", "frequently", "rarely", "seldom", "hardly",
   "scarcely", "barely", "almost", "nearly", "approximately", "roughly",
   "about", "around", "like", "such", "etc", "etcetera", "including",
   "along", "among", "upon", "within", "without", "toward", "towards",
   "against", "during", "since", "until", "after", "before", "because",
   "though", "although", "while", "whereas", "whether", "if", "unless",
   "until", "till", "once", "whenever", "wherever", "whoever", "whichever",
   "whatever", "whenever", "however", "howsoever", "whenever", "wherever",
   "whysoever", "whatsoever", "whosoever", "whomsoever", "whosesoever"]

/-- The punctuation set stripped from each word before the filler test
(app.py line 141). -/
def wordStripSet : List Char :=
  ['.', ',', '!', '?', ';', ':', '\x22', '\x27', '(', ')', '[', ']',
   '\x7b', '\x7d']

/-- Decision of the loop body at app.py lines 143 to 151 for the word at
index `i` of the sentence's word list `ws`: filler words are dropped
except that and, or, but survive at any non-first, non-last position and
with, from, to, for survive at any non-first position. -/
def keepWord (ws : List String) (i : Nat) (w : String) : Bool :=
  let wl := pyStripChars wordStripSet (pyLower w)
  if fillerWords.contains wl then
    if (["and", "or", "but"].contains wl) && decide (0 < i) &&
        decide (i < ws.length - 1) then true
    else if (["with", "from", "to", "for"].contains wl) && decide (0 < i) then
      true
    else false
  else true

/-- The accumulation of `filtered_words` over the enumerated word list,
mirroring the imperative loop with its running index. -/
def filterWordsAux (ws : List String) : Nat → List String → List String
  | _, [] => []
  | i, w :: rest =>
    if keepWord ws i w then w :: filterWordsAux ws (i + 1) rest
    else filterWordsAux ws (i + 1) rest

/-- The stopword-removal step applied to one sentence (app.py lines 137
to 151): split on whitespace and run the indexed filler filter. -/
def filterSentenceWords (sentence : String) : List String :=
  let ws := pySplitWs sentence
  filterWordsAux ws 0 ws

/-- Lines 153 to 154 of app.py: the sentence is rebuilt from the kept
words unless every word was removed, in which case it is left
unchanged. -/
def condenseWordsStep (sentence : String) : String :=
  let fw := filterSentenceWords sentence
  if fw.isEmpty then sentence else String.intercalate " " fw

/-- Substring containment test, used to state what an explanation text
does or does not say. -/
def hasSubstring : List Char → List Char → Bool
  | [], sub => sub.isEmpty
  | l@(_ :: rest), sub => sub.isPrefixOf l || hasSubstring rest sub

/-! # Claims -/

/-- C2: the active redaction entry point `anonymize_text` is the
identity on the text and reports an audit with zero PII redactions,
zero bias-indicator removals, and empty detail lists, for every input
string. -/
theorem anonymize_text_is_identity (t : String) :
    anonymize_text t = (t, RedactionAudit.mk 0 0 [] []) :=
  rfl

/-- C1 fails on the code: the redaction output is the input itself, and
for the input containing an email address the email detection pattern
still matches the output, so re-running the detector does not yield
zero matches.  The witness decomposition places the match on the
substring before the at sign, the domain, and the top-level domain,
with word boundaries at both ends. -/
theorem anonymize_text_email_survives :
    (anonymize_text "Contact john@doe.com").1 = "Contact john@doe.com" ∧
    emailMatchIn (anonymize_text "Contact john@doe.com").1 := by
  refine ⟨rfl, "Contact ".data, "john".data, "doe".data, "com".data, [],
    ?_, ?_, ?_, ?_, ?_, ?_, ?_, ?_, ?_⟩ <;> decide

/-- C3 fails on the code: the aggregation loop of the resume batch
recomputes the candidate label from the completion index, so the stored
label-to-resume association depends on completion order.  When
alice.pdf and bob.docx are uploaded in that order but bob.docx
completes first (completion order `[1, 0]`), bob.docx is stored under
Candidate001, while the upload-order completion `[0, 1]` stores
alice.pdf there. -/
theorem batch_labels_depend_on_completion_order :
    completedBatchNames ["alice.pdf", "bob.docx"] [1, 0] =
      [("Candidate001", "bob.docx"), ("Candidate002", "alice.pdf")] ∧
    completedBatchNames ["alice.pdf", "bob.docx"] [1, 0] ≠
      completedBatchNames ["alice.pdf", "bob.docx"] [0, 1] := by
  constructor
  · rfl
  · decide

/-! ### Scorer lemmas -/

theorem resumeKeywords_empty_string : resumeKeywords "" = [] := rfl

theorem matchingKeywords_empty_resume (jd : String) :
    matchingKeywords jd "" = [] := by
  unfold matchingKeywords
  rw [resumeKeywords_empty_string]
  simp

theorem analyze_candidate_score_def (jd rt : String) :
    (analyze_candidate jd rt).score =
      min 1 (max 0 (if (jobKeywords jd).isEmpty then (0 : ℚ)
        else ((matchingKeywords jd rt).length : ℚ) / ((jobKeywords jd).length : ℚ))) :=
  rfl

theorem analyze_candidate_empty_resume (jd : String) :
    (analyze_candidate jd "").score = 0 := by
  rw [analyze_candidate_score_def, matchingKeywords_empty_resume]
  simp

/-- C4: every resume record persisted by the upload endpoint carries
empty extracted and anonymized text, so the resume-side text handed to
the scorer is the empty string, and whenever the job text yields at
least one keyword the computed score is 0.0 (it is in fact 0.0
unconditionally). -/
theorem uploaded_resumes_score_zero (processed : List (String × String))
    (job_desc : String) (_h : jobKeywords job_desc ≠ []) :
    ∀ r ∈ uploadStoredResumes processed,
      r.extracted_text = "" ∧ r.anonymized_text = "" ∧
      resumeInputText r = "" ∧
      (analyze_candidate job_desc (resumeInputText r)).score = 0 := by
  intro r hr
  obtain ⟨p, -, rfl⟩ := List.mem_map.mp hr
  refine ⟨rfl, rfl, rfl, ?_⟩
  have hri : resumeInputText (storedResume p.1 p.2) = "" := rfl
  rw [hri, analyze_candidate_empty_resume]

/-- C4 witness: a concrete uploaded record scored against a job text
with a nonempty keyword set. -/
theorem uploaded_resumes_score_zero_witness :
    jobKeywords "python developer wanted" ≠ [] ∧
    (analyze_candidate "python developer wanted"
      (resumeInputText (storedResume "r1" "alice.pdf"))).score = 0 :=
  ⟨by decide,
   ((uploaded_resumes_score_zero [("r1", "alice.pdf")]
      "python developer wanted" (by decide))
     (storedResume "r1" "alice.pdf") (by simp [uploadStoredResumes])).2.2.2⟩

/-- C6 fails on the code at the zero-keyword edge: with empty job and
resume texts the resume keyword set is (vacuously) a superset of the
job keyword set, but the score is 0.0, not the 1.0 the superset clause
of the claim requires. -/
theorem keyword_scorer_superset_counterexample :
    (∀ w ∈ jobKeywords "", w ∈ resumeKeywords "") ∧
    (analyze_candidate "" "").score = 0 ∧
    (analyze_candidate "" "").score ≠ 1 := by
  refine ⟨by decide, ?_, ?_⟩
  · rw [analyze_candidate_empty_resume]
  · rw [analyze_candidate_empty_resume]; norm_num

/-- C6 (amended): the keyword-overlap score always lies in the unit
interval; it is 1.0 when the job-keyword set is nonempty and the resume
keyword set is a superset of it; it is 0.0 when the keyword sets do not
overlap, and 0.0 when the job text yields zero keywords (the
nonemptiness condition on the superset clause is what the
counterexample forces). -/
theorem keyword_scorer_bounds (jd rt : String) :
    0 ≤ (analyze_candidate jd rt).score ∧
    (analyze_candidate jd rt).score ≤ 1 ∧
    (jobKeywords jd ≠ [] → (∀ w ∈ jobKeywords jd, w ∈ resumeKeywords rt) →
      (analyze_candidate jd rt).score = 1) ∧
    ((∀ w ∈ jobKeywords jd, w ∉ resumeKeywords rt) →
      (analyze_candidate jd rt).score = 0) ∧
    (jobKeywords jd = [] → (analyze_candidate jd rt).score = 0) := by
  rw [analyze_candidate_score_def]
  refine ⟨le_min zero_le_one (le_max_left 0 _), min_le_left 1 _, ?_, ?_, ?_⟩
  · intro hK hsub
    have hM : matchingKeywords jd rt = jobKeywords jd := by
      unfold matchingKeywords
      exact List.filter_eq_self.mpr (fun a ha => by
        simpa using hsub a ha)
    have hKe : (jobKeywords jd).isEmpty = false := by
      cases hc : jobKeywords jd with
      | nil => exact absurd hc hK
      | cons a l => rfl
    have hlen : ((jobKeywords jd).length : ℚ) ≠ 0 := by
      exact_mod_cast fun hz => hK (List.length_eq_zero.mp (by exact_mod_cast hz))
    rw [hM, hKe, if_neg (by simp), div_self hlen]
    simp
  · intro hdisj
    have hM : matchingKeywords jd rt = [] := by
      unfold matchingKeywords
      exact List.filter_eq_nil_iff.mpr (fun a ha => by
        simpa using hdisj a ha)
    rw [hM]
    simp
  · intro hK
    rw [hK]
    simp

/-- C6 witness: a job text whose keyword set is nonempty and a resume
containing all of its keywords receives score 1.0. -/
theorem keyword_scorer_bounds_witness :
    (analyze_candidate "python developer wanted"
      "seasoned python developer wanted here").score = 1 :=
  (keyword_scorer_bounds "python developer wanted"
    "seasoned python developer wanted here").2.2.1 (by decide) (by decide)

/-- C7 fails on the code in its last clause: on an input where neither
response shape parses the parser returns score 0.0 with the fixed text
"Analysis completed", which does not state that the analysis could not
be parsed (it does not even contain the word sequence used by the
specification). -/
theorem marker_response_default_counterexample :
    parse_marker_response "" = AnalysisResult.mk 0 "Analysis completed" [] ∧
    hasSubstring "Analysis completed".data "could not be parsed".data = false ∧
    hasSubstring "Analysis completed".data "pars".data = false := by
  refine ⟨rfl, ?_, ?_⟩ <;> decide

/-- C7 (amended): the marker parser is a total function; for every
input string the returned score is in the unit interval (the extracted
score token clamped, 0.0 when no token matches), the citation list
holds at most five entries, and on an input where neither shape parses
(such as the empty string) it returns score 0.0 with the generic
explanation text rather than a parse-failure message. -/
theorem marker_response_bounds (content : String) :
    0 ≤ (parse_marker_response content).score ∧
    (parse_marker_response content).score ≤ 1 ∧
    (parse_marker_response content).citations.length ≤ 5 ∧
    parse_marker_response "" = AnalysisResult.mk 0 "Analysis completed" [] := by
  refine ⟨?_, ?_, ?_, rfl⟩
  · cases h : findScoreValue content.data with
    | some v =>
      simp only [parse_marker_response, h]
      exact le_min zero_le_one (le_max_left 0 v)
    | none => simp [parse_marker_response, h]
  · cases h : findScoreValue content.data with
    | some v =>
      simp only [parse_marker_response, h]
      exact min_le_left 1 _
    | none => simp [parse_marker_response, h]
  · show (parseCitations content).length ≤ 5
    unfold parseCitations
    cases markerGroup ['c','i','t','a','t','i','o','n'] true content.data with
    | some g => exact List.length_take_le 5 _
    | none => simp


/-! ### Lemmas on the per-resume analysis fold -/

theorem analyzeStep_some (scorer : String → String → AnalysisResult)
    (jt jid : String) (mkId : Resume → String)
    (ex : List Ranking) (outs : List RankingOut) (inv : List String)
    (r : Resume) (k : Ranking)
    (h : ex.find? (fun q => q.resume_id = r.id) = some k) :
    analyzeStep scorer jt jid mkId (ex, outs, inv) r =
      (ex,
       outs ++ [{ resume_id := r.id, filename := r.original_filename,
                  score := k.score, explanation := k.explanation,
                  citations := k.citations }],
       inv) := by
  simp [analyzeStep, h]

theorem analyzeStep_none (scorer : String → String → AnalysisResult)
    (jt jid : String) (mkId : Resume → String)
    (ex : List Ranking) (outs : List RankingOut) (inv : List String)
    (r : Resume)
    (h : ex.find? (fun q => q.resume_id = r.id) = none) :
    analyzeStep scorer jt jid mkId (ex, outs, inv) r =
      (ex ++ [{ id := mkId r, job_id := jid, resume_id := r.id,
                score := (scorer jt (resumeInputText r)).score,
                explanation := (scorer jt (resumeInputText r)).explanation,
                citations := (scorer jt (resumeInputText r)).citations,
                model_used := "keyword-matching" }],
       outs ++ [{ resume_id := r.id, filename := r.original_filename,
                  score := (scorer jt (resumeInputText r)).score,
                  explanation := (scorer jt (resumeInputText r)).explanation,
                  citations := (scorer jt (resumeInputText r)).citations }],
       inv ++ [r.id]) := by
  simp [analyzeStep, h]

theorem analyzeStep_fst_extend (scorer : String → String → AnalysisResult)
    (jt jid : String) (mkId : Resume → String)
    (acc : List Ranking × List RankingOut × List String) (r : Resume) :
    ∃ t, (analyzeStep scorer jt jid mkId acc r).1 = acc.1 ++ t := by
  obtain ⟨ex, outs, inv⟩ := acc
  cases h : ex.find? (fun q => q.resume_id = r.id) with
  | some k => rw [analyzeStep_some scorer jt jid mkId ex outs inv r k h]
              exact ⟨[], (List.append_nil ex).symm⟩
  | none => rw [analyzeStep_none scorer jt jid mkId ex outs inv r h]
            exact ⟨_, rfl⟩

theorem foldl_step_fst_extend (scorer : String → String → AnalysisResult)
    (jt jid : String) (mkId : Resume → String) (rs : List Resume) :
    ∀ acc, ∃ t,
      (rs.foldl (analyzeStep scorer jt jid mkId) acc).1 = acc.1 ++ t := by
  induction rs with
  | nil => exact fun acc => ⟨[], (List.append_nil _).symm⟩
  | cons r rs ih =>
    intro acc
    obtain ⟨t1, h1⟩ := analyzeStep_fst_extend scorer jt jid mkId acc r
    obtain ⟨t2, h2⟩ := ih (analyzeStep scorer jt jid mkId acc r)
    exact ⟨t1 ++ t2, by rw [List.foldl_cons, h2, h1, List.append_assoc]⟩

theorem analyzeStep_covers_self (scorer : String → String → AnalysisResult)
    (jt jid : String) (mkId : Resume → String)
    (acc : List Ranking × List RankingOut × List String) (r : Resume) :
    ∃ k ∈ (analyzeStep scorer jt jid mkId acc r).1, k.resume_id = r.id := by
  obtain ⟨ex, outs, inv⟩ := acc
  cases h : ex.find? (fun q => q.resume_id = r.id) with
  | some k =>
    rw [analyzeStep_some scorer jt jid mkId ex outs inv r k h]
    exact ⟨k, List.mem_of_find?_eq_some h, by simpa using List.find?_some h⟩
  | none =>
    rw [analyzeStep_none scorer jt jid mkId ex outs inv r h]
    exact ⟨_, List.mem_append_right _ (List.mem_singleton_self _), rfl⟩

theorem foldl_step_covers (scorer : String → String → AnalysisResult)
    (jt jid : String) (mkId : Resume → String) (rs : List Resume) :
    ∀ acc, ∀ r ∈ rs,
      ∃ k ∈ (rs.foldl (analyzeStep scorer jt jid mkId) acc).1,
        k.resume_id = r.id := by
  induction rs with
  | nil => intro acc r hr; cases hr
  | cons a rs ih =>
    intro acc r hr
    rw [List.foldl_cons]
    rcases List.mem_cons.mp hr with h | h
    · subst h
      obtain ⟨k, hk, hkid⟩ := analyzeStep_covers_self scorer jt jid mkId acc r
      obtain ⟨t, ht⟩ := foldl_step_fst_extend scorer jt jid mkId rs
        (analyzeStep scorer jt jid mkId acc r)
      exact ⟨k, by rw [ht]; exact List.mem_append_left _ hk, hkid⟩
    · exact ih _ r h

theorem foldl_step_no_invoke (scorer : String → String → AnalysisResult)
    (jt jid : String) (mkId : Resume → String) (rs : List Resume) :
    ∀ ex outs inv, (∀ r ∈ rs, ∃ k ∈ ex, k.resume_id = r.id) →
      (rs.foldl (analyzeStep scorer jt jid mkId) (ex, outs, inv)).1 = ex ∧
      (rs.foldl (analyzeStep scorer jt jid mkId) (ex, outs, inv)).2.2 = inv := by
  induction rs with
  | nil => exact fun ex outs inv _ => ⟨rfl, rfl⟩
  | cons a rs ih =>
    intro ex outs inv h
    obtain ⟨k, hk, hkid⟩ := h a (List.mem_cons_self a rs)
    have hsome : (ex.find? (fun q => q.resume_id = a.id)).isSome := by
      rw [List.find?_isSome]
      exact ⟨k, hk, by simpa using hkid⟩
    obtain ⟨k', hk'⟩ := Option.isSome_iff_exists.mp hsome
    rw [List.foldl_cons, analyzeStep_some scorer jt jid mkId ex outs inv a k' hk']
    exact ih ex _ inv (fun r hr => h r (List.mem_cons_of_mem a hr))

theorem foldl_step_invoked_nodup (scorer : String → String → AnalysisResult)
    (jt jid : String) (mkId : Resume → String) (rs : List Resume) :
    ∀ ex outs inv, (∀ x ∈ inv, ∃ k ∈ ex, k.resume_id = x) → inv.Nodup →
      ((rs.foldl (analyzeStep scorer jt jid mkId) (ex, outs, inv)).2.2).Nodup := by
  induction rs with
  | nil => exact fun ex outs inv _ hnd => hnd
  | cons a rs ih =>
    intro ex outs inv hcov hnd
    rw [List.foldl_cons]
    cases hf : ex.find? (fun q => q.resume_id = a.id) with
    | some k =>
      rw [analyzeStep_some scorer jt jid mkId ex outs inv a k hf]
      exact ih ex _ inv hcov hnd
    | none =>
      have hnin : a.id ∉ inv := by
        intro hmem
        obtain ⟨k, hk, hkid⟩ := hcov a.id hmem
        exact absurd (by simpa using hkid)
          (by simpa using List.find?_eq_none.mp hf k hk)
      rw [analyzeStep_none scorer jt jid mkId ex outs inv a hf]
      apply ih
      · intro x hx
        rcases List.mem_append.mp hx with hx | hx
        · obtain ⟨k, hk, hkid⟩ := hcov x hx
          exact ⟨k, List.mem_append_left _ hk, hkid⟩
        · rw [List.mem_singleton] at hx
          subst hx
          exact ⟨_, List.mem_append_right _ (List.mem_singleton_self _), rfl⟩
      · exact List.Nodup.append hnd (List.nodup_singleton _)
          (by simpa [List.disjoint_singleton] using hnin)

theorem foldl_step_ids_nodup (scorer : String → String → AnalysisResult)
    (jt jid : String) (mkId : Resume → String) (rs : List Resume) :
    ∀ ex outs inv, ((ex.map Ranking.resume_id).Nodup) →
      (((rs.foldl (analyzeStep scorer jt jid mkId) (ex, outs, inv)).1.map
        Ranking.resume_id).Nodup) := by
  induction rs with
  | nil => exact fun ex outs inv h => h
  | cons a rs ih =>
    intro ex outs inv h
    rw [List.foldl_cons]
    cases hf : ex.find? (fun q => q.resume_id = a.id) with
    | some k =>
      rw [analyzeStep_some scorer jt jid mkId ex outs inv a k hf]
      exact ih ex _ inv h
    | none =>
      have hnin : a.id ∉ ex.map Ranking.resume_id := by
        intro hmem
        obtain ⟨k, hk, hkid⟩ := List.mem_map.mp hmem
        exact absurd (by simpa using hkid)
          (by simpa using List.find?_eq_none.mp hf k hk)
      rw [analyzeStep_none scorer jt jid mkId ex outs inv a hf]
      apply ih
      rw [List.map_append]
      exact List.Nodup.append h (by simp)
        (by simpa [List.disjoint_singleton] using hnin)

/-- C9: an analysis request with an unknown job identifier, or with an
empty resume set, fails the operation synchronously: the endpoint
returns an error (the validation HTTPException, rewrapped with status
500 by the enclosing handler), the persisted store is unchanged, and
the scorer is never invoked. -/
theorem analyze_candidates_validation (scorer : String → String → AnalysisResult)
    (mkId : Resume → String) (store : Store) (job_id : String) :
    (store.jobs.find? (fun j => j.id = job_id) = none →
      analyze_candidates scorer mkId store job_id =
        ⟨store, Except.error ⟨500,
          "Failed to analyze candidates: 404: Job description not found"⟩, []⟩) ∧
    (store.resumes = [] →
      (analyze_candidates scorer mkId store job_id).store = store ∧
      (∃ e, (analyze_candidates scorer mkId store job_id).result = Except.error e) ∧
      (analyze_candidates scorer mkId store job_id).invoked = []) := by
  constructor
  · intro h
    simp [analyze_candidates, h]
  · intro h
    cases hjob : store.jobs.find? (fun j => j.id = job_id) with
    | none =>
      refine ⟨?_, ⟨⟨500,
        "Failed to analyze candidates: 404: Job description not found"⟩, ?_⟩, ?_⟩ <;>
        simp [analyze_candidates, hjob]
    | some job =>
      refine ⟨?_, ⟨⟨500,
        "Failed to analyze candidates: 400: No resumes uploaded yet"⟩, ?_⟩, ?_⟩ <;>
        simp [analyze_candidates, hjob, h]

/-- C9 witness: a store with no jobs makes the endpoint fail with the
wrapped not-found error, leaving the store untouched and the scorer
uninvoked. -/
theorem analyze_candidates_validation_witness :
    (Store.mk [] [] (fun _ => [])).jobs.find? (fun j => j.id = "missing") = none ∧
    analyze_candidates (fun _ _ => AnalysisResult.mk 0 "" []) (fun r => r.id)
      (Store.mk [] [] (fun _ => [])) "missing" =
      ⟨Store.mk [] [] (fun _ => []),
       Except.error ⟨500,
         "Failed to analyze candidates: 404: Job description not found"⟩, []⟩ :=
  ⟨rfl,
   (analyze_candidates_validation (fun _ _ => AnalysisResult.mk 0 "" [])
     (fun r => r.id) (Store.mk [] [] (fun _ => [])) "missing").1 rfl⟩

/-- Reduction of the endpoint on its success path: with the job found
and a nonempty resume set, the outcome is the fold over the resumes
starting from the stored rankings. -/
theorem analyze_candidates_ok (scorer : String → String → AnalysisResult)
    (mkId : Resume → String) (store : Store) (job_id : String) (job : Job)
    (hjob : store.jobs.find? (fun j => j.id = job_id) = some job)
    (hres : store.resumes.isEmpty = false) :
    analyze_candidates scorer mkId store job_id =
      { store :=
          { store with
              rankings := fun j =>
                if j = job_id then
                  (store.resumes.foldl
                    (analyzeStep scorer (jobInputText job) job_id mkId)
                    (store.rankings job_id, [], [])).1
                else store.rankings j },
        result :=
          Except.ok
            ⟨job_id,
             (store.resumes.foldl
               (analyzeStep scorer (jobInputText job) job_id mkId)
               (store.rankings job_id, [], [])).2.1.length,
             (sortRankings
               ((store.resumes.foldl
                 (analyzeStep scorer (jobInputText job) job_id mkId)
                 (store.rankings job_id, [], [])).2.1)).take 10⟩,
        invoked :=
          (store.resumes.foldl
            (analyzeStep scorer (jobInputText job) job_id mkId)
            (store.rankings job_id, [], [])).2.2 } := by
  simp [analyze_candidates, hjob, hres]

/-- C5: re-analysis is idempotent and preserves the one-ranking-per-pair
invariant.  Across two successive runs of the analysis endpoint the
scorer is invoked at most once per resume id; the second run leaves the
persisted rankings of the job unchanged (every existing ranking is
reused rather than recomputed); and if the stored rankings hold at most
one record per resume id before a run, they still do afterwards. -/
theorem analyze_candidates_idempotent (scorer : String → String → AnalysisResult)
    (mkId : Resume → String) (store : Store) (job_id : String) :
    (∀ x : String,
      (((analyze_candidates scorer mkId store job_id).invoked ++
        (analyze_candidates scorer mkId
          (analyze_candidates scorer mkId store job_id).store job_id).invoked).count x) ≤ 1) ∧
    ((analyze_candidates scorer mkId
        (analyze_candidates scorer mkId store job_id).store job_id).store.rankings job_id =
      (analyze_candidates scorer mkId store job_id).store.rankings job_id) ∧
    (((store.rankings job_id).map Ranking.resume_id).Nodup →
      (((analyze_candidates scorer mkId store job_id).store.rankings job_id).map
        Ranking.resume_id).Nodup) := by
  cases hjob : store.jobs.find? (fun j => j.id = job_id) with
  | none => simp [analyze_candidates, hjob]
  | some job =>
    cases hres : store.resumes.isEmpty with
    | true => simp [analyze_candidates, hjob, hres]
    | false =>
      have hok1 := analyze_candidates_ok scorer mkId store job_id job hjob hres
      have hjobs1 : (analyze_candidates scorer mkId store job_id).store.jobs =
          store.jobs := by rw [hok1]
      have hres1 : (analyze_candidates scorer mkId store job_id).store.resumes =
          store.resumes := by rw [hok1]
      have hrank1 : (analyze_candidates scorer mkId store job_id).store.rankings
            job_id =
          (store.resumes.foldl
            (analyzeStep scorer (jobInputText job) job_id mkId)
            (store.rankings job_id, [], [])).1 := by
        rw [hok1]; exact if_pos rfl
      have hinv1 : (analyze_candidates scorer mkId store job_id).invoked =
          (store.resumes.foldl
            (analyzeStep scorer (jobInputText job) job_id mkId)
            (store.rankings job_id, [], [])).2.2 := by rw [hok1]
      have hok2 := analyze_candidates_ok scorer mkId
        (analyze_candidates scorer mkId store job_id).store job_id job
        (by rw [hjobs1]; exact hjob) (by rw [hres1]; exact hres)
      have hrank2 : (analyze_candidates scorer mkId
            (analyze_candidates scorer mkId store job_id).store job_id).store.rankings
            job_id =
          ((analyze_candidates scorer mkId store job_id).store.resumes.foldl
            (analyzeStep scorer (jobInputText job) job_id mkId)
            ((analyze_candidates scorer mkId store job_id).store.rankings job_id,
              [], [])).1 := by
        rw [hok2]; exact if_pos rfl
      have hinv2 : (analyze_candidates scorer mkId
            (analyze_candidates scorer mkId store job_id).store job_id).invoked =
          ((analyze_candidates scorer mkId store job_id).store.resumes.foldl
            (analyzeStep scorer (jobInputText job) job_id mkId)
            ((analyze_candidates scorer mkId store job_id).store.rankings job_id,
              [], [])).2.2 := by rw [hok2]
      rw [hres1, hrank1] at hrank2 hinv2
      have hcov := foldl_step_covers scorer (jobInputText job) job_id mkId
        store.resumes (store.rankings job_id, [], [])
      have hni := foldl_step_no_invoke scorer (jobInputText job) job_id mkId
        store.resumes
        ((store.resumes.foldl
          (analyzeStep scorer (jobInputText job) job_id mkId)
          (store.rankings job_id, [], [])).1) [] [] hcov
      have hnd1 := foldl_step_invoked_nodup scorer (jobInputText job) job_id mkId
        store.resumes (store.rankings job_id) [] []
        (fun x hx => absurd hx (List.not_mem_nil x)) List.nodup_nil
      refine ⟨?_, ?_, ?_⟩
      · intro x
        rw [hinv1, hinv2, hni.2, List.append_nil]
        exact List.nodup_iff_count_le_one.mp hnd1 x
      · rw [hrank1, hrank2, hni.1]
      · intro hnd0
        rw [hrank1]
        exact foldl_step_ids_nodup scorer (jobInputText job) job_id mkId
          store.resumes (store.rankings job_id) [] [] hnd0

/-- C5 witness: a concrete one-job, one-resume store with a stub scorer;
the theorem yields the preserved at-most-one-ranking-per-pair invariant
after the run. -/
theorem analyze_candidates_idempotent_witness :
    (((analyze_candidates (fun _ _ => AnalysisResult.mk (1/2) "kw" [])
        (fun r => r.id)
        (Store.mk [Job.mk "j1" "python job" "" "job.txt"]
          [Resume.mk "r1" "alice.pdf" "text" ""] (fun _ => []))
        "j1").store.rankings "j1").map Ranking.resume_id).Nodup :=
  (analyze_candidates_idempotent (fun _ _ => AnalysisResult.mk (1/2) "kw" [])
    (fun r => r.id)
    (Store.mk [Job.mk "j1" "python job" "" "job.txt"]
      [Resume.mk "r1" "alice.pdf" "text" ""] (fun _ => []))
    "j1").2.2 (by simp)

/-! ### Sorting lemmas -/

theorem filter_orderedInsert (c : ℚ) (x : RankingOut) (l : List RankingOut) :
    (List.orderedInsert scoreGE x l).filter (fun o => decide (o.score = c)) =
      (x :: l).filter (fun o => decide (o.score = c)) := by
  rw [List.orderedInsert_eq_take_drop]
  have hsplit := List.takeWhile_append_dropWhile
    (p := fun b => decide ¬(scoreGE x b)) (l := l)
  by_cases hx : x.score = c
  · have htake : ((l.takeWhile fun b => decide ¬(scoreGE x b)).filter
        (fun o => decide (o.score = c))) = [] := by
      refine List.filter_eq_nil_iff.mpr (fun a ha => ?_)
      have hmem := List.mem_takeWhile_imp ha
      simp only [decide_eq_true_eq, scoreGE] at hmem
      simp only [decide_eq_true_eq]
      intro hac
      exact hmem (le_of_eq (by rw [hac, hx]))
    rw [List.filter_append, htake, List.nil_append,
      List.filter_cons_of_pos (by simpa using hx),
      List.filter_cons_of_pos (by simpa using hx)]
    conv_rhs => rw [← hsplit]
    rw [List.filter_append, htake, List.nil_append]
  · rw [List.filter_append,
      List.filter_cons_of_neg (by simpa using hx),
      List.filter_cons_of_neg (by simpa using hx)]
    conv_rhs => rw [← hsplit]
    rw [List.filter_append]

theorem filter_insertionSort (c : ℚ) (l : List RankingOut) :
    (List.insertionSort scoreGE l).filter (fun o => decide (o.score = c)) =
      l.filter (fun o => decide (o.score = c)) := by
  induction l with
  | nil => rfl
  | cons a l ih =>
    rw [List.insertionSort, filter_orderedInsert, List.filter_cons,
      List.filter_cons, ih]

/-- C8: for any insertion order, the ranked list produced by the sort
used in the analysis and results endpoints is sorted in descending
order of score; rankings of equal score appear exactly in their
original (upload) order, stated as the sort leaving every equal-score
fibre of the list untouched; and the truncated prefix the endpoints
return is likewise sorted. -/
theorem sortRankings_sorted_stable (l : List RankingOut) (n : Nat) :
    (sortRankings l).Sorted scoreGE ∧
    (∀ c : ℚ, (sortRankings l).filter (fun o => decide (o.score = c)) =
      l.filter (fun o => decide (o.score = c))) ∧
    ((sortRankings l).take n).Sorted scoreGE := by
  refine ⟨List.sorted_insertionSort scoreGE l,
    fun c => filter_insertionSort c l, ?_⟩
  exact List.Pairwise.sublist (List.take_sublist n _)
    (List.sorted_insertionSort scoreGE l)

/-! ### Condenser word-filter lemmas -/

theorem keepWord_eq (ws : List String) (i : Nat) (w : String) :
    keepWord ws i w =
      (!(fillerWords.contains (pyStripChars wordStripSet (pyLower w))) ||
       ((["and", "or", "but"].contains (pyStripChars wordStripSet (pyLower w))) &&
         decide (0 < i) && decide (i < ws.length - 1)) ||
       ((["with", "from", "to", "for"].contains
           (pyStripChars wordStripSet (pyLower w))) && decide (0 < i))) := by
  simp only [keepWord]
  cases hc : fillerWords.contains (pyStripChars wordStripSet (pyLower w))
  · simp [hc]
  · simp only [hc, Bool.not_true, Bool.false_or]
    cases hA : (["and", "or", "but"].contains (pyStripChars wordStripSet (pyLower w))) &&
        decide (0 < i) && decide (i < ws.length - 1)
    · simp [hA]
    · simp [hA]

theorem filterWordsAux_eq (ws : List String) (l : List String) :
    ∀ i, filterWordsAux ws i l =
      ((l.enumFrom i).filter (fun p => keepWord ws p.1 p.2)).map Prod.snd := by
  induction l with
  | nil => intro i; rfl
  | cons w rest ih =>
    intro i
    simp only [filterWordsAux, List.enumFrom]
    cases hk : keepWord ws i w <;>
      simp [hk, List.filter_cons, ih (i + 1)]

/-- C10 fails on the code: the claim preserves a preposition positioned
strictly between two content words, but in the sentence
"experience in Python teams" the stopword "in" sits strictly between
the content words "experience" and "Python" (neither of which is a
filler word after stripping and case folding) and is nevertheless
removed, because the source only ever preserves the four prepositions
with, from, to, for. -/
theorem condenser_removes_between_preposition :
    filterSentenceWords "experience in Python teams" =
      ["experience", "Python", "teams"] ∧
    fillerWords.contains "in" = true ∧
    fillerWords.contains (pyStripChars wordStripSet (pyLower "experience")) = false ∧
    fillerWords.contains (pyStripChars wordStripSet (pyLower "Python")) = false := by
  refine ⟨?_, ?_, ?_, ?_⟩ <;> decide

/-- C10 (amended): the condenser removes curated stopwords from each
kept sentence except that the coordinating conjunctions and, or, but
are preserved at any position that is neither first nor last, and the
four prepositions with, from, to, for are preserved at any non-first
position; the neighbouring words play no role, and every other
preposition of the stopword list is removed unconditionally. -/
theorem filterSentenceWords_keep_rule (s : String) :
    filterSentenceWords s =
      (((pySplitWs s).enum.filter (fun p =>
        !(fillerWords.contains (pyStripChars wordStripSet (pyLower p.2))) ||
        ((["and", "or", "but"].contains
            (pyStripChars wordStripSet (pyLower p.2))) &&
          decide (0 < p.1) && decide (p.1 < (pySplitWs s).length - 1)) ||
        ((["with", "from", "to", "for"].contains
            (pyStripChars wordStripSet (pyLower p.2))) &&
          decide (0 < p.1)))).map Prod.snd) := by
  have h1 : filterSentenceWords s =
      (((pySplitWs s).enumFrom 0).filter
        (fun p => keepWord (pySplitWs s) p.1 p.2)).map Prod.snd :=
    filterWordsAux_eq (pySplitWs s) (pySplitWs s) 0
  rw [h1]
  congr 1
  apply List.filter_congr
  intro p _
  rw [keepWord_eq]

end CVastian
